import Mathlib

/-!
# BookFrame worker API — verification of the core logic

Shallow embedding of the BookFrame Cloudflare worker (`src/api/v1/index.ts`)
and proofs about its edition upsert/dedup engine, runtime normalization,
search rate limiting, edition lookup and filtered discovery.

Strings from the JavaScript source are modelled as `List Char`
(`String.data`); SQL `NULL` and JavaScript `null`/`undefined`/absent JSON
fields are modelled as `Option.none`.  The D1 store backing the `editions`
table is modelled as a `List EditionRow` in insertion (rowid) order; `first()`
on a `SELECT` is `List.find?`, an `UPDATE ... WHERE id = ?` rewrites every
row whose `id` column equals the binding, and an `INSERT` appends.
-/

namespace BookFrame

/-! ## JavaScript-side primitives -/

/-- JavaScript falsiness of a nullable string value: `null`/`undefined`
(modelled `none`) and the empty string are falsy; used by `!x` checks in the
worker (validation and query-parameter guards). -/
def isFalsy : Option (List Char) → Bool
  | none => true
  | some s => s.isEmpty

/-- ASCII lower-casing of one character, the fragment of JS `toLowerCase`
relevant to the worker's comparisons (`'asc'`, query cooldown keys). -/
def lowerChar (c : Char) : Char :=
  if 'A' ≤ c ∧ c ≤ 'Z' then Char.ofNat (c.toNat + 32) else c

/-- ASCII lower-casing of a string (JS `toLowerCase` on the relevant inputs). -/
def lowerStr (s : List Char) : List Char := s.map lowerChar

/-- JS `String.prototype.trim`: strip whitespace from both ends. -/
def jsTrim (s : List Char) : List Char :=
  ((s.dropWhile Char.isWhitespace).reverse.dropWhile Char.isWhitespace).reverse

structure EditionRow where
  id : String
  work_id : Option String
  type : Option String
  format : Option String
  isbn : Option String
  asin : Option String
  narrator : Option String
  abridged : Option Bool
  page_count : Option Int
  runtime : Option String
  release_date : Option String
  language : Option String
  publisher : Option String
  series_name : Option String
  series_position : Option Int
  explicit : Option Bool
  genres : Option String
  tags : Option String
  updated_at : Option String
deriving DecidableEq

/-- JavaScript falsiness of a nullable string (`!x` on a `string | null |
undefined` value: `null`, `undefined` and `""` are falsy). -/
def jsFalsy : Option String → Bool
  | none => true
  | some s => s.isEmpty

/-- SQL equality `column = binding`: `NULL` on either side never compares
equal (`NULL = x` is `NULL`, which is not true). -/
def sqlEqOpt (a b : Option String) : Bool :=
  match a, b with
  | some x, some y => x == y
  | _, _ => false

/-- First disjunct of the dedup `SELECT`:
`isbn = ? AND ? IS NOT NULL` with the candidate's isbn bound to both `?`s. -/
def isbnArm (pIsbn : Option String) (row : EditionRow) : Bool :=
  sqlEqOpt row.isbn pIsbn && pIsbn.isSome

/-- Second disjunct of the dedup `SELECT`:
`asin = ? AND ? IS NOT NULL` with the candidate's asin bound to both `?`s. -/
def asinArm (pAsin : Option String) (row : EditionRow) : Bool :=
  sqlEqOpt row.asin pAsin && pAsin.isSome

/-- The dedup / lookup `WHERE` clause
`(isbn = ? AND ? IS NOT NULL) OR (asin = ? AND ? IS NOT NULL)`
(used by both `POST /editions`, lines 500–504, and `GET /editions/lookup`,
lines 466–469). -/
def dedupMatch (pIsbn pAsin : Option String) (row : EditionRow) : Bool :=
  isbnArm pIsbn row || asinArm pAsin row

/-! ## POST /editions (`src/api/v1/index.ts` lines 488–536) -/

/-- The `CreateEditionRequest` payload; every field may be absent from the
JSON body (absent and `null` both modelled as `none`). -/
structure CreateEditionRequest where
  id : Option String
  work_id : Option String
  type : Option String
  format : Option String
  isbn : Option String
  asin : Option String
  narrator : Option String
  abridged : Option Bool
  page_count : Option Int
  runtime : Option String
  release_date : Option String
  language : Option String
  publisher : Option String
  series_name : Option String
  series_position : Option Int
  explicit : Option Bool
  genres : Option String
  tags : Option String
deriving DecidableEq

/-- Validation guard of the handler (line 496):
`!work_id || !type || !format || (!isbn && !asin)`. -/
def missingRequired (p : CreateEditionRequest) : Bool :=
  jsFalsy p.work_id || jsFalsy p.type || jsFalsy p.format ||
    (jsFalsy p.isbn && jsFalsy p.asin)

/-- Effect of the `UPDATE editions SET ... WHERE id = ?` statement on one row
(lines 507–518): every mutable column is overwritten from the payload and
`updated_at` is refreshed; the `id` column is untouched. -/
def applyUpdate (p : CreateEditionRequest) (now : String) (row : EditionRow) :
    EditionRow :=
  { row with
    work_id := p.work_id, type := p.type, format := p.format,
    isbn := p.isbn, asin := p.asin, narrator := p.narrator,
    abridged := p.abridged, page_count := p.page_count,
    runtime := p.runtime, release_date := p.release_date,
    language := p.language, publisher := p.publisher,
    series_name := p.series_name, series_position := p.series_position,
    explicit := p.explicit, genres := p.genres, tags := p.tags,
    updated_at := some now }

/-- Row built by the `INSERT INTO editions` statement (lines 523–534). -/
def insertRow (p : CreateEditionRequest) (newId now : String) : EditionRow :=
  { id := newId, work_id := p.work_id, type := p.type, format := p.format,
    isbn := p.isbn, asin := p.asin, narrator := p.narrator,
    abridged := p.abridged, page_count := p.page_count,
    runtime := p.runtime, release_date := p.release_date,
    language := p.language, publisher := p.publisher,
    series_name := p.series_name, series_position := p.series_position,
    explicit := p.explicit, genres := p.genres, tags := p.tags,
    updated_at := some now }

/-- Identifier used on insert: `const newId = id || crypto.randomUUID()`
(line 522) — a falsy caller-supplied id (absent or empty) is replaced by the
generated UUID, passed in here as `genId`. -/
def editionNewId (p : CreateEditionRequest) (genId : String) : String :=
  match p.id with
  | some i => if i.isEmpty then genId else i
  | none => genId

/-- Outcome of the `POST /editions` handler, with the JSON bodies
`{error}`, `{status: "updated", id}` and `{status: "created", id}`. -/
inductive PostResult where
  | validationError
  | updated (id : String)
  | created (id : String)
deriving DecidableEq

/-- HTTP status attached to each `POST /editions` outcome: 400 for the
validation error, `Response.json` default 200 for "updated", explicit 201
for "created". -/
def postStatus : PostResult → Nat
  | .validationError => 400
  | .updated _ => 200
  | .created _ => 201

/-- The `POST /editions` upsert handler (lines 488–536): validate, look for
the first row matched by the dedup `SELECT`, then either `UPDATE` every row
carrying the matched id, or `INSERT` a fresh row at the end of the table.
`genId` stands for the `crypto.randomUUID()` draw and `now` for
`new Date().toISOString()`. -/
def postEditions (p : CreateEditionRequest) (genId now : String)
    (store : List EditionRow) : PostResult × List EditionRow :=
  if missingRequired p then
    (.validationError, store)
  else
    match store.find? (dedupMatch p.isbn p.asin) with
    | some existing =>
        (.updated existing.id,
         store.map fun row =>
           if row.id = existing.id then applyUpdate p now row else row)
    | none =>
        let newId := editionNewId p genId
        (.created newId, store ++ [insertRow p newId now])

/-- Two rows collide on the dedup keys: they share a non-null isbn or a
non-null asin. -/
def keyClash (a b : EditionRow) : Bool :=
  (a.isbn.isSome && a.isbn == b.isbn) || (a.asin.isSome && a.asin == b.asin)

/-- The uniqueness invariant of the editions table: at most one row per
non-null isbn value and at most one row per non-null asin value. -/
def keyInv (store : List EditionRow) : Prop :=
  store.Pairwise fun a b => keyClash a b = false

/-- Primary-key discipline of the table: no two rows share an `id`. -/
def idsDistinct (store : List EditionRow) : Prop :=
  store.Pairwise fun a b => a.id ≠ b.id

instance (store : List EditionRow) : Decidable (keyInv store) :=
  inferInstanceAs (Decidable (store.Pairwise fun a b => keyClash a b = false))

instance (store : List EditionRow) : Decidable (idsDistinct store) :=
  inferInstanceAs (Decidable (store.Pairwise fun (a b : EditionRow) => a.id ≠ b.id))

/-! ## GET /editions/lookup (`src/api/v1/index.ts` lines 459–472) -/

/-- Outcome of the lookup handler: `badRequest` is the 400 `{error}` answer,
`foundEdition` the 200 answer carrying the normalized row, and `foundFalse`
the 200 answer with body `found: false`. -/
inductive LookupResult where
  | badRequest
  | foundEdition (row : EditionRow)
  | foundFalse
deriving DecidableEq

/-- HTTP status of each lookup outcome (`Response.json` defaults to 200). -/
def lookupStatus : LookupResult → Nat
  | .badRequest => 400
  | .foundEdition _ => 200
  | .foundFalse => 200

/-- The `GET /editions/lookup` handler: reject when both query parameters
are falsy, otherwise run the dedup `SELECT ... first()`; it performs no
write, so the table is returned unchanged. -/
def editionsLookup (isbn asin : Option String) (store : List EditionRow) :
    LookupResult × List EditionRow :=
  if jsFalsy isbn && jsFalsy asin then
    (.badRequest, store)
  else
    match store.find? (dedupMatch isbn asin) with
    | some row => (.foundEdition row, store)
    | none => (.foundFalse, store)

/-! ## GET /discover/editions (`src/api/v1/index.ts` lines 834–882) -/

/-- Query parameters of the discovery endpoint.  The nine filter parameters
and `sort`/`order` are raw strings, `none` when absent from the URL.  `limit`
and `offset` are modelled as the natural numbers the handler obtains via
`Number(...)` from their string defaults `'25'`/`'0'` or the caller's values
(the handler performs no validation on them beyond that conversion). -/
structure DiscoverParams where
  type : Option String
  format : Option String
  language : Option String
  publisher : Option String
  series_name : Option String
  explicit : Option String
  abridged : Option String
  genres : Option String
  tags : Option String
  sort : Option String
  order : Option String
  limit : Nat
  offset : Nat
deriving DecidableEq

/-- One equality filter term: skipped when the parameter is falsy
(`if (type) where.push('type = ?')`), otherwise SQL equality against the
column (a `NULL` column never matches). -/
def strFilter (param column : Option String) : Bool :=
  if jsFalsy param then true else sqlEqOpt column param

/-- One boolean filter term: applied whenever the parameter is present
(`explicit !== undefined`), comparing the stored flag against
`param === 'true' ? 1 : 0`; a `NULL` column never matches. -/
def boolFilter (param : Option String) (column : Option Bool) : Bool :=
  match param with
  | none => true
  | some s =>
      match column with
      | some b => b == (s == "true")
      | none => false

/-- SQLite `LIKE '%' pat '%'`: ASCII-case-insensitive substring containment
(SQLite's default `LIKE` is case-insensitive on ASCII letters). -/
def likeContains (pat target : String) : Bool :=
  (lowerStr target.data).tails.any fun t => (lowerStr pat.data).isPrefixOf t

/-- One `LIKE` filter term (for `genres` and `tags`): skipped when the
parameter is falsy, otherwise substring containment; `NULL LIKE ...` is not
true. -/
def likeFilter (param column : Option String) : Bool :=
  if jsFalsy param then true
  else
    match column, param with
    | some s, some g => likeContains g s
    | _, _ => false

/-- The conjunctive `WHERE` clause the handler assembles from exactly the
parameters present in the request (lines 851–865): absent filter, no term. -/
def discoverPred (q : DiscoverParams) (row : EditionRow) : Bool :=
  strFilter q.type row.type && strFilter q.format row.format &&
  strFilter q.language row.language && strFilter q.publisher row.publisher &&
  strFilter q.series_name row.series_name &&
  boolFilter q.explicit row.explicit && boolFilter q.abridged row.abridged &&
  likeFilter q.genres row.genres && likeFilter q.tags row.tags

/-- Sort-field allow-listing (line 866):
`['release_date', 'runtime', 'page_count'].includes(sort) ? sort :
'release_date'`, with destructuring default `'release_date'` when the
parameter is absent. -/
def sortSafe (sort : Option String) : String :=
  let s := sort.getD "release_date"
  if s == "release_date" || s == "runtime" || s == "page_count" then s
  else "release_date"

/-- ASCII lower-casing packaged back into a `String`. -/
def lowerS (s : String) : String := ⟨lowerStr s.data⟩

/-- Sort-direction selection (line 867):
`order.toLowerCase() === 'asc' ? 'ASC' : 'DESC'`, with destructuring default
`'desc'` when the parameter is absent. -/
def orderSafe (order : Option String) : String :=
  if lowerS (order.getD "desc") == "asc" then "ASC" else "DESC"

/-- Ascending comparison on a nullable text column (SQLite orders `NULL`
before every value, text by its collation). -/
def optStrLE : Option String → Option String → Bool
  | none, _ => true
  | some _, none => false
  | some a, some b => decide (a ≤ b)

/-- Ascending comparison on a nullable numeric column. -/
def optIntLE : Option Int → Option Int → Bool
  | none, _ => true
  | some _, none => false
  | some a, some b => decide (a ≤ b)

/-- Ascending comparison keyed by the (allow-listed) `ORDER BY` field. -/
def fieldLE (field : String) (a b : EditionRow) : Bool :=
  if field == "runtime" then optStrLE a.runtime b.runtime
  else if field == "page_count" then optIntLE a.page_count b.page_count
  else optStrLE a.release_date b.release_date

/-- The comparison `ORDER BY ${sortSafe} ${orderSafe}` sorts rows by:
ascending `fieldLE` for `ASC`, its flip for `DESC`. -/
def sortRel (q : DiscoverParams) (a b : EditionRow) : Bool :=
  if orderSafe q.order == "ASC" then fieldLE (sortSafe q.sort) a b
  else fieldLE (sortSafe q.sort) b a

/-- Body of the discovery response.  `results` holds the page of raw rows;
the handler then maps `normalizeEdition` over the page pointwise for JSON
output, which changes neither which rows are returned nor how many. -/
structure DiscoverResponse where
  total : Nat
  limit : Nat
  offset : Nat
  results : List EditionRow
deriving DecidableEq

/-- The `GET /discover/editions` handler (lines 834–882): one `COUNT(*)`
over the assembled `WHERE` clause, then a `SELECT` over the same clause with
`ORDER BY ${sortSafe} ${orderSafe} LIMIT ? OFFSET ?` (the offset is applied
before the limit). -/
def discoverEditions (q : DiscoverParams) (store : List EditionRow) :
    DiscoverResponse :=
  let filtered := store.filter (discoverPred q)
  let sorted := List.insertionSort (fun a b => sortRel q a b = true) filtered
  { total := filtered.length
    limit := q.limit
    offset := q.offset
    results := (sorted.drop q.offset).take q.limit }

/-! ## GET /search — the rate-limit gate (`src/api/v1/index.ts` lines 136–165)

The cooldown map `lastSearchTimestamps` is declared *inside* the `fetch`
handler (line 137), so every incoming request starts from a freshly created,
empty map. -/

/-- The map the rate-limit check reads: created by `new Map()` at the top of
each `fetch` invocation, hence always empty when `/search` consults it. -/
def lastSearchTimestamps : List (String × Nat) := []

/-- The cooldown test (lines 160–162): `now - (map.get(query) || 0) < 60000`
with `now = Date.now()` in milliseconds since the epoch. -/
def rateLimitHit (timestamps : List (String × Nat)) (query : String)
    (now : Nat) : Bool :=
  let last := (timestamps.lookup query).getD 0
  (now : Int) - last < 60000

/-- How far a `GET /search` request gets through the guards: 400 for a short
query, 429 when the cooldown fires, otherwise the handler proceeds to the
local query and (on a local miss) the external provider. -/
inductive SearchGate where
  | queryTooShort
  | rateLimited
  | proceeds (query : String)
deriving DecidableEq

/-- The guard sequence of the `/search` route (lines 152–165) for one
invocation at time `now`: normalize the query
(`q?.toLowerCase().trim()`), reject short queries, then consult the
cooldown map — which, per line 137, is the freshly created empty one. -/
def searchGate (q : Option String) (now : Nat) : SearchGate :=
  match q with
  | none => .queryTooShort
  | some s =>
      let query : String := ⟨jsTrim (lowerStr s.data)⟩
      if query.length < 2 then .queryTooShort
      else if rateLimitHit lastSearchTimestamps query now then .rateLimited
      else .proceeds query

/-! ## Concrete fixtures used by witnesses and counterexamples -/

/-- A minimal valid edition payload carrying the given dedup keys. -/
def payloadFix (i a : Option String) : CreateEditionRequest :=
  { id := none, work_id := some "w1", type := some "book",
    format := some "print", isbn := i, asin := a, narrator := none,
    abridged := none, page_count := none, runtime := none,
    release_date := none, language := none, publisher := none,
    series_name := none, series_position := none, explicit := none,
    genres := none, tags := none }

/-- A minimal stored edition row carrying the given id and dedup keys. -/
def rowFix (id : String) (i a : Option String) : EditionRow :=
  { id := id, work_id := some "w1", type := some "book",
    format := some "print", isbn := i, asin := a, narrator := none,
    abridged := none, page_count := none, runtime := none,
    release_date := none, language := none, publisher := none,
    series_name := none, series_position := none, explicit := none,
    genres := none, tags := none, updated_at := some "t0" }

/-- A stored edition row with the given discovery attributes. -/
def rowDisc (id : String) (ty lang : Option String) : EditionRow :=
  { rowFix id none (some id) with type := ty, language := lang }

/-! ## Helper lemmas -/

lemma find?_append_of_forall_false {α : Type} {p : α → Bool} :
    ∀ {l1 l2 : List α}, (∀ x ∈ l1, p x = false) →
      (l1 ++ l2).find? p = l2.find? p := by
  intro l1 l2 h
  induction l1 with
  | nil => rfl
  | cons x xs ih =>
      have hx : p x = false := h x (List.mem_cons_self x xs)
      simp only [List.cons_append, List.find?_cons, hx]
      exact ih fun y hy => h y (List.mem_cons_of_mem x hy)

lemma map_id_of_forall {α : Type} {f : α → α} :
    ∀ {l : List α}, (∀ x ∈ l, f x = x) → l.map f = l := by
  intro l h
  induction l with
  | nil => rfl
  | cons x xs ih =>
      rw [List.map_cons, h x (List.mem_cons_self x xs),
        ih fun y hy => h y (List.mem_cons_of_mem x hy)]

lemma sqlEqOpt_some_right (a : Option String) (y : String) :
    sqlEqOpt a (some y) = (a == some y) := by
  cases a <;> rfl

/-- A row that fails the dedup match cannot clash with a row carrying
exactly the candidate's keys (the non-matching row on the left). -/
lemma keyClash_left_of_no_match (a : EditionRow) (pi pa : Option String)
    (h : dedupMatch pi pa a = false) (b : EditionRow)
    (hbi : b.isbn = pi) (hba : b.asin = pa) : keyClash a b = false := by
  have harms := Bool.or_eq_false_iff.mp h
  have hi := harms.1
  have ha := harms.2
  subst hbi hba
  apply Bool.or_eq_false_iff.mpr
  constructor
  · cases hai : a.isbn with
    | none => rfl
    | some x =>
        cases hbi : b.isbn with
        | none => rfl
        | some y =>
            simp only [isbnArm, sqlEqOpt, hai, hbi, Option.isSome_some,
              Bool.and_true] at hi
            simp [hi]
  · cases haa : a.asin with
    | none => rfl
    | some x =>
        cases hbb : b.asin with
        | none => rfl
        | some y =>
            simp only [asinArm, sqlEqOpt, haa, hbb, Option.isSome_some,
              Bool.and_true] at ha
            simp [ha]

/-- A row that fails the dedup match cannot clash with a row carrying
exactly the candidate's keys (the non-matching row on the right). -/
lemma keyClash_right_of_no_match (a : EditionRow) (pi pa : Option String)
    (h : dedupMatch pi pa a = false) (b : EditionRow)
    (hbi : b.isbn = pi) (hba : b.asin = pa) : keyClash b a = false := by
  have harms := Bool.or_eq_false_iff.mp h
  have hi := harms.1
  have ha := harms.2
  subst hbi hba
  apply Bool.or_eq_false_iff.mpr
  constructor
  · cases hbi : b.isbn with
    | none => rfl
    | some y =>
        cases hai : a.isbn with
        | none => simp [hai]
        | some x =>
            simp only [isbnArm, sqlEqOpt, hai, hbi, Option.isSome_some,
              Bool.and_true] at hi
            have : x ≠ y := by simpa [beq_iff_eq] using hi
            simp [hai, beq_iff_eq, Ne.symm this]
  · cases hbb : b.asin with
    | none => rfl
    | some y =>
        cases haa : a.asin with
        | none => simp [haa]
        | some x =>
            simp only [asinArm, sqlEqOpt, haa, hbb, Option.isSome_some,
              Bool.and_true] at ha
            have : x ≠ y := by simpa [beq_iff_eq] using ha
            simp [haa, beq_iff_eq, Ne.symm this]

lemma two_le_countP {α : Type} {p : α → Bool} {l : List α} {a b : α}
    (ha : a ∈ l) (hb : b ∈ l) (hab : a ≠ b)
    (hpa : p a = true) (hpb : p b = true) : 2 ≤ l.countP p := by
  induction l with
  | nil => cases ha
  | cons x xs ih =>
      rcases List.mem_cons.mp ha with rfl | ha2
      · rcases List.mem_cons.mp hb with rfl | hb2
        · exact absurd rfl hab
        · have h1 : 0 < xs.countP p := List.countP_pos_iff.mpr ⟨b, hb2, hpb⟩
          rw [List.countP_cons_of_pos _ _ hpa]
          omega
      · rcases List.mem_cons.mp hb with rfl | hb2
        · have h1 : 0 < xs.countP p := List.countP_pos_iff.mpr ⟨a, ha2, hpa⟩
          rw [List.countP_cons_of_pos _ _ hpb]
          omega
        · have h2 := ih ha2 hb2
          calc 2 ≤ xs.countP p := h2
            _ ≤ (x :: xs).countP p := by rw [List.countP_cons]; omega

/-- Claim C7: an edition upsert payload missing the work reference, the
type, the format, or both dedup keys is rejected by `POST /editions` with a
validation failure (HTTP 400) and the editions table is left unchanged. -/
theorem postEditions_validation_rejects (p : CreateEditionRequest)
    (genId now : String) (store : List EditionRow)
    (h : p.work_id = none ∨ p.type = none ∨ p.format = none ∨
      (p.isbn = none ∧ p.asin = none)) :
    postEditions p genId now store = (.validationError, store) ∧
    postStatus (postEditions p genId now store).fst = 400 := by
  have hm : missingRequired p = true := by
    rcases h with h | h | h | ⟨h1, h2⟩ <;> simp_all [missingRequired, jsFalsy]
  simp [postEditions, hm, postStatus]

/-- Witness for C7: a payload with no format is rejected and writes nothing. -/
theorem postEditions_validation_rejects_witness :
    postEditions { payloadFix (some "0001") none with format := none }
        "g" "t" [] = (.validationError, []) ∧
    postStatus (postEditions { payloadFix (some "0001") none with format := none }
        "g" "t" []).fst = 400 :=
  postEditions_validation_rejects _ "g" "t" []
    (Or.inr (Or.inr (Or.inl rfl)))

/-- Claim C10: a `GET /editions/lookup` request that supplies at least one
of isbn/asin but matches no stored edition answers HTTP 200 with
`found: false` — not a 404 — and the table is unchanged. -/
theorem editionsLookup_miss_answers_ok (isbn asin : Option String)
    (store : List EditionRow)
    (hsupplied : jsFalsy isbn = false ∨ jsFalsy asin = false)
    (hmiss : ∀ row ∈ store, dedupMatch isbn asin row = false) :
    editionsLookup isbn asin store = (.foundFalse, store) ∧
    lookupStatus .foundFalse = 200 ∧ lookupStatus .foundFalse ≠ 404 := by
  have hguard : (jsFalsy isbn && jsFalsy asin) = false := by
    rcases hsupplied with h | h <;> simp [h]
  have hfind : store.find? (dedupMatch isbn asin) = none :=
    List.find?_eq_none.mpr fun x hx => by simp [hmiss x hx]
  simp [editionsLookup, hguard, hfind, lookupStatus]

/-- Witness for C10: looking up an isbn absent from a one-row table. -/
theorem editionsLookup_miss_answers_ok_witness :
    editionsLookup (some "0009") none [rowFix "e1" (some "0001") none] =
      (.foundFalse, [rowFix "e1" (some "0001") none]) ∧
    lookupStatus .foundFalse = 200 ∧ lookupStatus .foundFalse ≠ 404 :=
  editionsLookup_miss_answers_ok (some "0009") none _
    (Or.inl (by decide)) (by decide)

/-- Claim C3 (code bug): because `lastSearchTimestamps` is created afresh
inside every `fetch` invocation, no `GET /search` request with a realistic
clock (`Date.now() ≥ 60000` ms after the epoch) is ever answered 429 — in
particular the second of two identical searches within 60 seconds is not
rate limited, contrary to the spec. -/
theorem searchGate_never_rate_limited (q : Option String) (now : Nat)
    (h : 60000 ≤ now) : searchGate q now ≠ SearchGate.rateLimited := by
  cases q with
  | none => simp [searchGate]
  | some s =>
      have hrl : rateLimitHit lastSearchTimestamps
          (⟨jsTrim (lowerStr s.data)⟩ : String) now = false := by
        simp only [rateLimitHit, lastSearchTimestamps, List.lookup_nil,
          Option.getD_none]
        simp only [decide_eq_false_iff_not, not_lt]
        omega
      simp only [searchGate, hrl]
      split <;> simp

/-- Witness for C3: the repeated search for "dune" one second after a first
search at epoch-milliseconds 1760000000000 is not rate limited. -/
theorem searchGate_never_rate_limited_witness :
    searchGate (some "dune") 1760000001000 ≠ SearchGate.rateLimited :=
  searchGate_never_rate_limited (some "dune") 1760000001000 (by decide)

/-- Claim C8: the discovery sort field is always one of the allow-list, a
sort parameter outside the allow-list silently falls back to
`release_date`, and the direction is descending unless the caller supplies
an order parameter that lower-cases to `asc`. -/
theorem discover_sort_allowlist (s o : Option String) :
    (sortSafe s = "release_date" ∨ sortSafe s = "runtime" ∨
      sortSafe s = "page_count") ∧
    (∀ v, s = some v →
      v ∉ (["release_date", "runtime", "page_count"] : List String) →
      sortSafe s = "release_date") ∧
    (orderSafe o = "ASC" ∨ orderSafe o = "DESC") ∧
    (orderSafe o = "ASC" ↔ ∃ v, o = some v ∧ lowerS v = "asc") := by
  refine ⟨?_, ?_, ?_, ?_⟩
  · cases s with
    | none => exact Or.inl (by decide)
    | some v =>
        simp only [sortSafe, Option.getD_some]
        split
        · rename_i hcond
          rcases Bool.or_eq_true_iff.mp hcond with hor | h3
          · rcases Bool.or_eq_true_iff.mp hor with h1 | h2
            · exact Or.inl (beq_iff_eq.mp h1)
            · exact Or.inr (Or.inl (beq_iff_eq.mp h2))
          · exact Or.inr (Or.inr (beq_iff_eq.mp h3))
        · exact Or.inl rfl
  · rintro v rfl hv
    simp only [List.mem_cons, List.mem_singleton, not_or] at hv
    simp only [sortSafe, Option.getD_some]
    rw [if_neg]
    simp only [Bool.or_eq_true_iff, beq_iff_eq, not_or]
    exact ⟨⟨hv.1, hv.2.1⟩, hv.2.2.1⟩
  · unfold orderSafe
    split
    · exact Or.inl rfl
    · exact Or.inr rfl
  · unfold orderSafe
    cases o with
    | none =>
        constructor
        · intro h
          rw [if_neg (by decide)] at h
          exact absurd h (by decide)
        · rintro ⟨v, hv, _⟩
          cases hv
    | some v =>
        simp only [Option.getD_some]
        constructor
        · intro h
          refine ⟨v, rfl, ?_⟩
          by_contra hne
          rw [if_neg (by simpa [beq_iff_eq] using hne)] at h
          exact absurd h (by decide)
        · rintro ⟨w, hw, hlow⟩
          cases hw
          rw [if_pos (beq_iff_eq.mpr hlow)]

/-- Witness for C8: `sort=title` falls back to `release_date`, and
`order=ASC` selects the ascending direction. -/
theorem discover_sort_allowlist_witness :
    sortSafe (some "title") = "release_date" ∧ orderSafe (some "ASC") = "ASC" :=
  ⟨(discover_sort_allowlist (some "title") (some "ASC")).2.1 "title" rfl
      (by decide),
   (discover_sort_allowlist (some "title") (some "ASC")).2.2.2.mpr
      ⟨"ASC", rfl, by decide⟩⟩

/-- Counterexample for C6: two editions with distinct non-null isbns *do*
match each other through the dedup lookup when they share an asin — the
lookup is a disjunction over both keys, so distinct isbns alone do not
prevent a match. -/
theorem dedup_distinct_isbn_counterexample :
    (rowFix "e1" (some "0001") (some "X1")).isbn ≠
      (rowFix "e2" (some "0002") (some "X1")).isbn ∧
    (rowFix "e1" (some "0001") (some "X1")).isbn.isSome = true ∧
    (rowFix "e2" (some "0002") (some "X1")).isbn.isSome = true ∧
    dedupMatch (rowFix "e2" (some "0002") (some "X1")).isbn
      (rowFix "e2" (some "0002") (some "X1")).asin
      (rowFix "e1" (some "0001") (some "X1")) = true := by decide

/-- Claim C6 (amended): the dedup match never collides on absent keys — a
null candidate isbn matches nothing through the isbn arm and a null
candidate asin matches nothing through the asin arm — and two editions with
distinct non-null isbns that do not also share a non-null asin never match
each other through the dedup lookup. -/
theorem dedupMatch_null_guarded (e1 e2 : EditionRow) :
    (∀ row : EditionRow, isbnArm none row = false) ∧
    (∀ row : EditionRow, asinArm none row = false) ∧
    (∀ (pAsin : Option String) (row : EditionRow),
      dedupMatch none pAsin row = asinArm pAsin row) ∧
    (e1.isbn.isSome = true → e2.isbn.isSome = true → e1.isbn ≠ e2.isbn →
      (e1.asin = none ∨ e2.asin = none ∨ e1.asin ≠ e2.asin) →
      dedupMatch e2.isbn e2.asin e1 = false ∧
      dedupMatch e1.isbn e1.asin e2 = false) := by
  refine ⟨?_, ?_, ?_, ?_⟩
  · intro row; simp [isbnArm]
  · intro row; simp [asinArm]
  · intro pAsin row; simp [dedupMatch, isbnArm]
  · intro h1 h2 hne hasin
    rcases Option.isSome_iff_exists.mp h1 with ⟨i1, hi1⟩
    rcases Option.isSome_iff_exists.mp h2 with ⟨i2, hi2⟩
    have hii : i1 ≠ i2 := by
      intro hc; exact hne (by rw [hi1, hi2, hc])
    have harm1 : isbnArm e2.isbn e1 = false := by
      simp [isbnArm, sqlEqOpt, hi1, hi2, beq_iff_eq, hii]
    have harm1' : isbnArm e1.isbn e2 = false := by
      simp [isbnArm, sqlEqOpt, hi1, hi2, beq_iff_eq, Ne.symm hii]
    have harm2 : asinArm e2.asin e1 = false := by
      rcases hasin with h | h | h
      · simp [asinArm, sqlEqOpt, h]
      · simp [asinArm, h]
      · cases ha1 : e1.asin with
        | none => simp [asinArm, sqlEqOpt, ha1]
        | some x =>
            cases ha2 : e2.asin with
            | none => simp [asinArm, ha2]
            | some y =>
                have hxy : x ≠ y := by
                  intro hc; exact h (by rw [ha1, ha2, hc])
                simp [asinArm, sqlEqOpt, ha1, ha2, beq_iff_eq, hxy]
    have harm2' : asinArm e1.asin e2 = false := by
      rcases hasin with h | h | h
      · simp [asinArm, h]
      · simp [asinArm, sqlEqOpt, h]
      · cases ha1 : e1.asin with
        | none => simp [asinArm, ha1]
        | some x =>
            cases ha2 : e2.asin with
            | none => simp [asinArm, sqlEqOpt, ha2]
            | some y =>
                have hyx : y ≠ x := by
                  intro hc; exact h (by rw [ha1, ha2, hc])
                simp [asinArm, sqlEqOpt, ha1, ha2, beq_iff_eq, hyx]
    exact ⟨by simp [dedupMatch, harm1, harm2],
           by simp [dedupMatch, harm1', harm2']⟩

/-- Witness for C6 (amended): editions with distinct isbns and distinct
asins match in neither direction. -/
theorem dedupMatch_null_guarded_witness :
    dedupMatch (rowFix "e2" (some "0002") (some "X2")).isbn
      (rowFix "e2" (some "0002") (some "X2")).asin
      (rowFix "e1" (some "0001") (some "X1")) = false ∧
    dedupMatch (rowFix "e1" (some "0001") (some "X1")).isbn
      (rowFix "e1" (some "0001") (some "X1")).asin
      (rowFix "e2" (some "0002") (some "X2")) = false :=
  (dedupMatch_null_guarded (rowFix "e1" (some "0001") (some "X1"))
      (rowFix "e2" (some "0002") (some "X2"))).2.2.2
    (by decide) (by decide) (by decide) (Or.inr (Or.inr (by decide)))

/-- Counterexample for C2: against a store that already holds a row with
the payload's isbn, the *first* submission reports "updated" (status 200),
not "created" with status 201 — so the claim fails for arbitrary stores. -/
theorem dedup_idempotence_counterexample :
    (postEditions (payloadFix (some "0001") none) "g1" "t1"
        [rowFix "e1" (some "0001") none]).fst = .updated "e1" ∧
    postStatus (postEditions (payloadFix (some "0001") none) "g1" "t1"
        [rowFix "e1" (some "0001") none]).fst = 200 ∧
    ∀ nid, (postEditions (payloadFix (some "0001") none) "g1" "t1"
        [rowFix "e1" (some "0001") none]).fst ≠ .created nid := by
  refine ⟨by decide, by decide, ?_⟩
  intro nid h
  have h2 : (postEditions (payloadFix (some "0001") none) "g1" "t1"
      [rowFix "e1" (some "0001") none]).fst = .updated "e1" := by decide
  rw [h2] at h
  exact PostResult.noConfusion h

/-- Claim C2 (amended): submitting the same valid edition payload (with a
non-null isbn) twice against any store in which no row matches the
payload's keys and no row already carries the identifier assigned at
creation leaves exactly one row for that isbn; the first submission answers
"created" (HTTP 201) with some identifier and the second answers "updated"
with that same identifier. -/
theorem postEditions_dedup_idempotent (p : CreateEditionRequest)
    (g1 g2 t1 t2 : String) (store : List EditionRow) (i : String)
    (hvalid : missingRequired p = false)
    (hisbn : p.isbn = some i)
    (hnomatch : ∀ row ∈ store, dedupMatch p.isbn p.asin row = false)
    (hfresh : ∀ row ∈ store, row.id ≠ editionNewId p g1) :
    ∃ nid store1 store2,
      postEditions p g1 t1 store = (.created nid, store1) ∧
      postStatus (.created nid) = 201 ∧
      postEditions p g2 t2 store1 = (.updated nid, store2) ∧
      (store2.countP fun row => row.isbn == some i) = 1 := by
  set nid := editionNewId p g1 with hnid
  have hrow : ∀ row ∈ store, (row.isbn == some i) = false := by
    intro row hr
    have h := Bool.or_eq_false_iff.mp (hnomatch row hr)
    have hi := h.1
    rw [hisbn] at hi
    simp only [isbnArm, Option.isSome_some, Bool.and_true] at hi
    rw [← sqlEqOpt_some_right]
    exact hi
  have hfind1 : store.find? (dedupMatch p.isbn p.asin) = none :=
    List.find?_eq_none.mpr fun x hx => by simp [hnomatch x hx]
  have hpost1 : postEditions p g1 t1 store =
      (.created nid, store ++ [insertRow p nid t1]) := by
    simp [postEditions, hvalid, hfind1]
  have hmatchnew : dedupMatch p.isbn p.asin (insertRow p nid t1) = true := by
    apply Bool.or_eq_true_iff.mpr
    left
    simp [isbnArm, insertRow, sqlEqOpt, hisbn]
  have hfind2 : (store ++ [insertRow p nid t1]).find?
      (dedupMatch p.isbn p.asin) = some (insertRow p nid t1) := by
    rw [find?_append_of_forall_false hnomatch]
    simp [List.find?_cons, hmatchnew]
  have hpost2 : postEditions p g2 t2 (store ++ [insertRow p nid t1]) =
      (.updated nid,
       store ++ [applyUpdate p t2 (insertRow p nid t1)]) := by
    simp only [postEditions, hvalid, Bool.false_eq_true, if_false, hfind2]
    have hid : (insertRow p nid t1).id = nid := rfl
    rw [hid]
    refine Prod.ext rfl ?_
    simp only
    rw [List.map_append]
    rw [map_id_of_forall fun row hr => by
      rw [if_neg]
      exact hfresh row hr]
    simp [insertRow]
  refine ⟨nid, store ++ [insertRow p nid t1],
    store ++ [applyUpdate p t2 (insertRow p nid t1)],
    hpost1, rfl, hpost2, ?_⟩
  rw [List.countP_append]
  rw [List.countP_eq_zero.mpr fun row hr => by simp [hrow row hr]]
  have : ((applyUpdate p t2 (insertRow p nid t1)).isbn == some i) = true := by
    simp [applyUpdate, insertRow, hisbn]
  simp [List.countP_cons, this]

/-- Witness for C2 (amended): two submissions of the same payload against
the empty store. -/
theorem postEditions_dedup_idempotent_witness :
    ∃ nid store1 store2,
      postEditions (payloadFix (some "0001") none) "g1" "t1" [] =
        (.created nid, store1) ∧
      postStatus (.created nid) = 201 ∧
      postEditions (payloadFix (some "0001") none) "g2" "t2" store1 =
        (.updated nid, store2) ∧
      (store2.countP fun row => row.isbn == some "0001") = 1 :=
  postEditions_dedup_idempotent (payloadFix (some "0001") none)
    "g1" "g2" "t1" "t2" [] "0001" (by decide) rfl
    (by simp) (by simp)

/-- Counterexample for C1: a valid payload whose isbn matches one stored
row and whose asin matches a *different* stored row makes the upsert
rewrite the isbn-matched row with the payload's asin, leaving two rows with
that asin — the uniqueness invariant is not preserved in general. -/
theorem upsert_key_invariant_counterexample :
    missingRequired (payloadFix (some "0001") (some "A2")) = false ∧
    keyInv [rowFix "e1" (some "0001") (some "A1"),
            rowFix "e2" (some "0002") (some "A2")] ∧
    ¬ keyInv (postEditions (payloadFix (some "0001") (some "A2")) "g" "t"
        [rowFix "e1" (some "0001") (some "A1"),
         rowFix "e2" (some "0002") (some "A2")]).snd := by decide

/-- Claim C1 (amended): for every starting store with pairwise-distinct row
ids that satisfies the at-most-one-row-per-isbn / per-asin invariant, and
every candidate payload whose dedup keys match at most one stored row, the
store after the `POST /editions` upsert still satisfies the invariant. -/
theorem postEditions_preserves_keyInv (p : CreateEditionRequest)
    (genId now : String) (store : List EditionRow)
    (hids : idsDistinct store) (hinv : keyInv store)
    (hcount : store.countP (dedupMatch p.isbn p.asin) ≤ 1) :
    keyInv (postEditions p genId now store).snd := by
  cases hv : missingRequired p with
  | true => simpa [postEditions, hv] using hinv
  | false =>
      cases hfind : store.find? (dedupMatch p.isbn p.asin) with
      | none =>
          rw [show (postEditions p genId now store).snd =
              store ++ [insertRow p (editionNewId p genId) now] from by
            simp [postEditions, hv, hfind]]
          have hnm : ∀ x ∈ store, dedupMatch p.isbn p.asin x = false :=
            fun x hx => by
              have := List.find?_eq_none.mp hfind x hx
              simpa using this
          unfold keyInv
          rw [List.pairwise_append]
          refine ⟨hinv, by simp, ?_⟩
          intro a ha b hb
          rw [List.mem_singleton] at hb
          subst hb
          exact keyClash_left_of_no_match a p.isbn p.asin (hnm a ha) _ rfl rfl
      | some existing =>
          rw [show (postEditions p genId now store).snd =
              store.map (fun row =>
                if row.id = existing.id then applyUpdate p now row else row)
            from by simp [postEditions, hv, hfind]]
          have hmem : existing ∈ store := List.mem_of_find?_eq_some hfind
          have hmatch : dedupMatch p.isbn p.asin existing = true :=
            List.find?_some hfind
          have honly : ∀ b ∈ store, b.id ≠ existing.id →
              dedupMatch p.isbn p.asin b = false := by
            intro b hb hbid
            by_contra hbm
            have hbm' : dedupMatch p.isbn p.asin b = true := by
              simpa using hbm
            have hbne : b ≠ existing := fun hc => hbid (by rw [hc])
            have := two_le_countP hb hmem hbne hbm' hmatch
            omega
          unfold keyInv
          rw [List.pairwise_map]
          refine List.Pairwise.imp_of_mem ?_ (hinv.and hids)
          intro a b ha hb hab
          by_cases haid : a.id = existing.id
          · have hbid : b.id ≠ existing.id := by
              rw [← haid]
              exact Ne.symm hab.2
            rw [if_pos haid, if_neg hbid]
            exact keyClash_right_of_no_match b p.isbn p.asin
              (honly b hb hbid) _ rfl rfl
          · by_cases hbidq : b.id = existing.id
            · rw [if_neg haid, if_pos hbidq]
              exact keyClash_left_of_no_match a p.isbn p.asin
                (honly a ha haid) _ rfl rfl
            · rw [if_neg haid, if_neg hbidq]
              exact hab.1

/-- Witness for C1 (amended): updating the single matching row of a
two-row store keeps the invariant. -/
theorem postEditions_preserves_keyInv_witness :
    keyInv (postEditions (payloadFix (some "0001") (some "A9")) "g" "t"
        [rowFix "e1" (some "0001") (some "A1"),
         rowFix "e2" (some "0002") (some "A2")]).snd :=
  postEditions_preserves_keyInv (payloadFix (some "0001") (some "A9")) "g" "t"
    [rowFix "e1" (some "0001") (some "A1"),
     rowFix "e2" (some "0002") (some "A2")]
    (by decide) (by decide) (by decide)

/-- Claim C9: the discovery response's `total` is the number of stored
editions satisfying the assembled conjunctive predicate — independent of
`limit` and `offset` — and the returned page holds at most `limit` rows,
each stored and satisfying that same predicate. -/
theorem discoverEditions_pagination_consistent (q : DiscoverParams)
    (store : List EditionRow) :
    (discoverEditions q store).total = store.countP (discoverPred q) ∧
    (∀ l o, (discoverEditions { q with limit := l, offset := o } store).total =
      (discoverEditions q store).total) ∧
    (discoverEditions q store).results.length ≤ q.limit ∧
    (∀ row ∈ (discoverEditions q store).results,
      discoverPred q row = true ∧ row ∈ store) := by
  refine ⟨(List.countP_eq_length_filter _ _).symm, fun l o => rfl,
    List.length_take_le _ _, ?_⟩
  intro row hrow
  have h1 : row ∈ (List.insertionSort (fun a b => sortRel q a b = true)
      (store.filter (discoverPred q))).drop q.offset :=
    List.mem_of_mem_take hrow
  have h2 : row ∈ List.insertionSort (fun a b => sortRel q a b = true)
      (store.filter (discoverPred q)) :=
    List.mem_of_mem_drop h1
  have h3 : row ∈ store.filter (discoverPred q) :=
    (List.perm_insertionSort _ _).mem_iff.mp h2
  have h4 := List.mem_filter.mp h3
  exact ⟨h4.2, h4.1⟩

/-- Witness for C9: the three-row discovery scenario filtered by
`type=print` and `language=en` has total 1 and a page within the limit. -/
theorem discoverEditions_pagination_consistent_witness :
    (discoverEditions
        { type := some "print", format := none, language := some "en",
          publisher := none, series_name := none, explicit := none,
          abridged := none, genres := none, tags := none, sort := none,
          order := none, limit := 25, offset := 0 }
        [rowDisc "d1" (some "print") (some "en"),
         rowDisc "d2" (some "print") (some "es"),
         rowDisc "d3" (some "audiobook") (some "en")]).total = 1 ∧
    (discoverEditions
        { type := some "print", format := none, language := some "en",
          publisher := none, series_name := none, explicit := none,
          abridged := none, genres := none, tags := none, sort := none,
          order := none, limit := 25, offset := 0 }
        [rowDisc "d1" (some "print") (some "en"),
         rowDisc "d2" (some "print") (some "es"),
         rowDisc "d3" (some "audiobook") (some "en")]).results.length ≤ 25 := by
  have h := discoverEditions_pagination_consistent
    { type := some "print", format := none, language := some "en",
      publisher := none, series_name := none, explicit := none,
      abridged := none, genres := none, tags := none, sort := none,
      order := none, limit := 25, offset := 0 }
    [rowDisc "d1" (some "print") (some "en"),
     rowDisc "d2" (some "print") (some "es"),
     rowDisc "d3" (some "audiobook") (some "en")]
  exact ⟨h.1.trans (by decide), h.2.2.1⟩

end BookFrame
